import Mathlib

/-!
A verification development for the poethepoet task-runner core

This file gives a shallow embedding in Lean 4 of the parts of the
poethepoet source relevant to the config loading/merge/validation
pipeline (`poethepoet/config.py`), the declarative options schema
(`poethepoet/options.py`), and the two composite task kinds
(`poethepoet/task/sequence.py`, `poethepoet/task/switch.py`), together
with theorems settling the behavioural claims about that code.

Python runtime values are modelled by the inductive type `PyVal`;
Python dicts that are keyed by strings (raw configs, task definitions,
task tables) are modelled as insertion-ordered association lists with
first-match lookup and in-place update, matching CPython dict
semantics for dicts with pairwise-distinct keys.  Exceptions are
modelled by the `PyErr` type and fallible code returns
`Except PyErr _`.
-/

namespace Poe
/-- A Python runtime value (the fragment needed by the embedded code). -/
inductive PyVal where
  | none : PyVal
  | bool (b : Bool) : PyVal
  | int (n : Int) : PyVal
  | str (s : String) : PyVal
  | list (xs : List PyVal) : PyVal
  | tuple (xs : List PyVal) : PyVal
  | dict (entries : List (String × PyVal)) : PyVal
  | boundMethod (name : String) : PyVal

/-- The Python exceptions raised by the embedded code. -/
inductive PyErr where
  | poeException (msg : String) : PyErr
  | executionError (msg : String) : PyErr
  | nameError (unboundName : String) : PyErr
  | typeError (msg : String) : PyErr
  | keyError (key : String) : PyErr
  | indexError : PyErr
  | assertionError : PyErr
  deriving Repr, DecidableEq

/-- Python `==` on the values we model.  `bool` is a subclass of `int` in
Python, so `True == 1` and `False == 0`; lists and tuples compare
elementwise but never equal each other; dict equality compares entries
(used nowhere on reordered dicts in this development); two bound
methods are equal when taken from the same attribute of the same
object. -/
def pyEq : PyVal → PyVal → Bool
  | .none, .none => true
  | .bool a, .bool b => a == b
  | .bool a, .int n => (if a then (1 : Int) else 0) == n
  | .int n, .bool a => n == (if a then (1 : Int) else 0)
  | .int a, .int b => a == b
  | .str a, .str b => a == b
  | .list xs, .list ys => pyEqList xs ys
  | .tuple xs, .tuple ys => pyEqList xs ys
  | .dict xs, .dict ys => pyEqEntries xs ys
  | .boundMethod a, .boundMethod b => a == b
  | _, _ => false
where
  pyEqList : List PyVal → List PyVal → Bool
    | [], [] => true
    | x :: xs, y :: ys => pyEq x y && pyEqList xs ys
    | _, _ => false
  pyEqEntries : List (String × PyVal) → List (String × PyVal) → Bool
    | [], [] => true
    | (k1, v1) :: xs, (k2, v2) :: ys => k1 == k2 && pyEq v1 v2 && pyEqEntries xs ys
    | _, _ => false

/-- Python `x in ys` for a tuple/list of values (membership via `==`). -/
def pyIn (x : PyVal) (ys : List PyVal) : Bool :=
  ys.any (fun y => pyEq x y)

/-- Python truthiness of a value. -/
def pyTruthy : PyVal → Bool
  | .none => false
  | .bool b => b
  | .int n => n != 0
  | .str s => s ≠ ""
  | .list xs => !xs.isEmpty
  | .tuple xs => !xs.isEmpty
  | .dict entries => !entries.isEmpty
  | .boundMethod _ => true

/-- A Python dict keyed by strings: insertion-ordered association list. -/
abbrev Dict := List (String × PyVal)

/-- Python `d[k]` / `d.get(k)`: the entry whose key matches (keys of a
real dict are pairwise distinct, so the first match is the entry). -/
def dictGet : Dict → String → Option PyVal
  | [], _ => Option.none
  | (k', v) :: rest, k => if k' = k then some v else dictGet rest k

/-- Python `k in d`. -/
def dictHas (d : Dict) (k : String) : Bool :=
  d.any (fun e => e.1 = k)

/-- Python `d[k] = v`: replace the value of the (unique) entry with key
`k` in place if present, else append a new entry — CPython dict
assignment keeps insertion order. -/
def dictSet : Dict → String → PyVal → Dict
  | [], k, v => [(k, v)]
  | (k', v') :: rest, k, v =>
    if k' = k then (k, v) :: rest else (k', v') :: dictSet rest k v

/-- Python `d.update(u)`: assign every entry of `u` into `d` in order. -/
def dictUpdate (d u : Dict) : Dict :=
  u.foldl (fun acc e => dictSet acc e.1 e.2) d

/-- The keys of a dict are pairwise distinct (invariant of every real
Python dict; our association lists only represent such dicts). -/
def nodupKeys (d : Dict) : Prop :=
  (d.map Prod.fst).Nodup

instance (d : Dict) : Decidable (nodupKeys d) := by
  unfold nodupKeys; infer_instance

/-- The `Option.orElse` fallback written out, to keep statements readable. -/
def orElseO : Option PyVal → Option PyVal → Option PyVal
  | some v, _ => some v
  | Option.none, b => b

/-!
Section: Config merge (`PoeConfig.tasks`, config.py lines 129-135)

```python
@property
def tasks(self):
    result = {}
    for config in reversed(self._included_config):
        result.update(config.get("tasks"))
    result.update(self._project_config.get("tasks"))
    return result
```

Each `ConfigPartition.get("tasks")` yields that partition's own task
table (an empty dict when unset, via the options fallback), so the
property is a pure function of the included configs' task tables (in
declaration order) and the project config's task table.
-/

/-- Embeds the `PoeConfig.tasks` property: start from `{}`, update with
each included config's tasks in reversed declaration order, then update
with the root project's own tasks. -/
def configTasks (includedTasks : List Dict) (projectTasks : Dict) : Dict :=
  dictUpdate (includedTasks.reverse.foldl dictUpdate []) projectTasks

/-- Lookup through the included configs in declaration order: the first
(earliest-declared) include that binds the key wins. -/
def firstIncludeGet : List Dict → String → Option PyVal
  | [], _ => Option.none
  | d :: rest, k => orElseO (dictGet d k) (firstIncludeGet rest k)

/-!
Section: Sequence task execution (`SequenceTask._handle_run`, sequence.py lines 115-148)

The subtask loop of `_handle_run`:

```python
ignore_fail = self.spec.options.get("ignore_fail")
non_zero_subtasks = list()
for subtask in self.subtasks:
    task_result = subtask.run(...)
    if task_result and not ignore_fail:
        raise ExecutionError(f"Sequence aborted after failed subtask {subtask.name!r}")
    if task_result:
        non_zero_subtasks.append(subtask.name)
if non_zero_subtasks and ignore_fail == "return_non_zero":
    raise ExecutionError(f"Subtasks {...} returned non-zero exit status")
return 0
```

A subtask is modelled by its name and the exit code its `run` call
returns; the model additionally records, as an observation, the names
of the subtasks whose `run` was actually called, in call order.
`ignore_fail` is the `PyVal` bound to the option (`False` via the
options fallback when unset, since `ignore_fail : Union[bool, str]`
and `bool()` is `False`).
-/

/-- A subtask of a sequence as seen by `SequenceTask._handle_run`: its
synthesized name and the exit code its `run` call returns. -/
structure SubTask where
  name : String
  exitCode : Int

/-- The `ExecutionError`s raised by `SequenceTask._handle_run`,
represented structurally (name(s) carried by the message). -/
inductive SeqErr where
  | abortedAfter (subtaskName : String) : SeqErr
  | subtasksNonZero (subtaskNames : List String) : SeqErr
  deriving Repr, DecidableEq

/-- The subtask loop of `SequenceTask._handle_run` with the
`non_zero_subtasks` accumulator, returning the names of the subtasks
that were run (in order) along with the outcome. -/
def seqRunAux (ignoreFail : PyVal) :
    List SubTask → List String → List String × Except SeqErr Int
  | [], nonZero =>
    ([],
      if !nonZero.isEmpty && pyEq ignoreFail (.str "return_non_zero") then
        .error (.subtasksNonZero nonZero)
      else .ok 0)
  | t :: rest, nonZero =>
    if t.exitCode != 0 && !pyTruthy ignoreFail then
      ([t.name], .error (.abortedAfter t.name))
    else if t.exitCode != 0 then
      (t.name :: (seqRunAux ignoreFail rest (nonZero ++ [t.name])).1,
        (seqRunAux ignoreFail rest (nonZero ++ [t.name])).2)
    else
      (t.name :: (seqRunAux ignoreFail rest nonZero).1,
        (seqRunAux ignoreFail rest nonZero).2)

/-- Embeds the subtask loop of `SequenceTask._handle_run`: first
component is the list of subtasks actually run (in order), second the
result (`.ok` for a normal return, `.error` for a raised
`ExecutionError`). -/
def seqRun (ignoreFail : PyVal) (subtasks : List SubTask) :
    List String × Except SeqErr Int :=
  seqRunAux ignoreFail subtasks []

/-- The names of the failing subtasks, in declaration order. -/
def failingNames (subtasks : List SubTask) : List String :=
  (subtasks.filter (fun s => s.exitCode != 0)).map SubTask.name

/-!
Section: Switch task execution (`SwitchTask._handle_run`, switch.py lines 169-213)

The dispatch part of `_handle_run` (after argument handling):

```python
task_result = self.control_task.run(...)
if task_result:
    raise ExecutionError(f"Switch task {self.name!r} aborted after failed control task")
if context.dry:
    self._print_action("unresolved case for switch task", dry=True, unresolved=True)
    return 0
control_task_output = context.get_task_output(self.control_task.invocation)
case_task = self.switch_tasks.get(control_task_output, self.switch_tasks.get(DEFAULT_CASE))
if case_task is None:
    if self.spec.options.get("default", "fail") == "pass":
        return 0
    raise ExecutionError(f"Control value {control_task_output!r} did not match ...")
return case_task.run(context=context, extra_args=extra_args, parent_env=env)
```

Case tasks are identified by an abstract id; `caseRun` gives the exit
code that running a given case task returns.  The first component of
the result observes which case task (if any) was run.
-/

/-- The `DEFAULT_CASE` sentinel from switch.py line 24. -/
def DEFAULT_CASE : String := "__default__"

/-- Generic first-match association lookup (Python `dict.get` for the
string-keyed `switch_tasks` dispatch table). -/
def lookupS {α : Type} : List (String × α) → String → Option α
  | [], _ => Option.none
  | (k', v) :: rest, k => if k' = k then some v else lookupS rest k

/-- The `Option.orElse` fallback, written out, at an arbitrary type. -/
def orElseA {α : Type} : Option α → Option α → Option α
  | some v, _ => some v
  | Option.none, b => b

/-- The `ExecutionError`s raised by `SwitchTask._handle_run`. -/
inductive SwitchRunErr where
  | abortedControl (switchName : String) : SwitchRunErr
  | unmatchedCase (controlOutput : String) (switchName : String) : SwitchRunErr
  deriving Repr, DecidableEq

/-- The state a running switch task dispatches over: its name, the
control task's run result and captured output, the run context's dry
flag, the `switch_tasks` dispatch table (case key → case task id), the
exit code each case task's `run` returns, and the bound value of the
`default` option if set. -/
structure SwitchState where
  name : String
  controlResult : Int
  controlOutput : String
  dry : Bool
  switchTasks : List (String × Nat)
  caseRun : Nat → Int
  defaultOpt : Option String

/-- Embeds the dispatch part of `SwitchTask._handle_run`: first
component is the case task that was run (if any), second the result
(`.ok` for a normal return, `.error` for a raised `ExecutionError`). -/
def switchHandleRun (s : SwitchState) : Option Nat × Except SwitchRunErr Int :=
  if s.controlResult != 0 then
    (Option.none, .error (.abortedControl s.name))
  else if s.dry then
    (Option.none, .ok 0)
  else
    match orElseA (lookupS s.switchTasks s.controlOutput)
        (lookupS s.switchTasks DEFAULT_CASE) with
    | Option.none =>
      if s.defaultOpt.getD "fail" = "pass" then (Option.none, .ok 0)
      else (Option.none, .error (.unmatchedCase s.controlOutput s.name))
    | some caseId => (some caseId, .ok (s.caseRun caseId))

/-!
Section: Switch task validation (`SwitchTask._validate_task_def`, switch.py lines 222-298,
and `SwitchTask.get_case_keys`, lines 215-220)

A switch task definition is seen by the validator through three
accesses: `task_def.get("control")`, iteration over
`task_def["switch"]` (a list of case-definition dicts), and
`task_def.get("default")` / `"default" in task_def`; `SwitchTaskDef`
records exactly those three projections.  `PoeTask.validate_def`
(defined in task/base.py, outside the sources considered here) is an
oracle parameter `vd`.  The `cases: defaultdict(int)` counter is a
Python dict keyed by arbitrary (hashable) values compared with `==`,
modelled as an association list with `pyEq`-based first-match
increment.  Error messages are represented structurally by `SwErr`.
-/

/-- The projections of a switch task definition used by
`SwitchTask._validate_task_def`. -/
structure SwitchTaskDef where
  control : Option PyVal
  cases : List Dict
  defaultOpt : Option PyVal

/-- Embeds `SwitchTask.get_case_keys`: the declared `case` value if it
is a list, else a singleton of it, defaulting to the `DEFAULT_CASE`
sentinel when untagged (the function returns a Python `list`, despite
its `Tuple` annotation). -/
def get_case_keys (c : Dict) : PyVal :=
  match dictGet c "case" with
  | some (.list xs) => .list xs
  | some v => .list [v]
  | Option.none => .list [.str DEFAULT_CASE]

/-- The elements of the list `get_case_keys` returns. -/
def caseKeysList (c : Dict) : List PyVal :=
  match dictGet c "case" with
  | some (.list xs) => xs
  | some v => [v]
  | Option.none => [.str DEFAULT_CASE]

/-- Python `cases[case_key] += 1` in a `defaultdict(int)`: increment the
(unique) entry whose key compares `==`-equal, else append a fresh
entry with count 1. -/
def bumpCount : List (PyVal × Nat) → PyVal → List (PyVal × Nat)
  | [], k => [(k, 1)]
  | e :: rest, k =>
    if pyEq e.1 k then (e.1, e.2 + 1) :: rest else e :: bumpCount rest k

/-- Count every key of a list into the counter. -/
def tallyKeys (counts : List (PyVal × Nat)) (ks : List PyVal) :
    List (PyVal × Nat) :=
  ks.foldl bumpCount counts

/-- The count recorded for `k`: the first `==`-matching entry's count. -/
def keyCountF : List (PyVal × Nat) → PyVal → Nat
  | [], _ => 0
  | e :: rest, k => if pyEq e.1 k then e.2 else keyCountF rest k

/-- The concatenation of every case's declared case keys, in order. -/
def allCaseKeys (td : SwitchTaskDef) : List PyVal :=
  (td.cases.map caseKeysList).flatten

/-- The validation errors `SwitchTask._validate_task_def` can return,
represented structurally (the returned strings carry the same data). -/
inductive SwErr where
  | noControl : SwErr
  | badControlType : SwErr
  | controlIssue (msg : String) : SwErr
  | caseInvalidOption (caseKey : Option PyVal) (opt : String) : SwErr
  | caseIssue (msg : String) : SwErr
  | duplicateDefaultCase : SwErr
  | duplicateCase (v : PyVal) : SwErr
  | badDefaultOption (v : PyVal) : SwErr
  | defaultOptionAndDefaultCase : SwErr

/-- Embeds `isinstance(control_task_def, dict) and not any(key in control_task_def
for key in ("expr", "cmd", "script"))` (switch.py lines 232-235). -/
def controlTypeBad : PyVal → Bool
  | .dict entries =>
    !(dictHas entries "expr" || dictHas entries "cmd" || dictHas entries "script")
  | _ => false

/-- The per-case loop of `_validate_task_def` (switch.py lines
247-273): tally each case's keys, reject an `args`/`deps` option on the
case, then recursively validate the case definition via the oracle. -/
def switchCaseLoop (vd : PyVal → Option String) :
    List Dict → List (PyVal × Nat) → List (PyVal × Nat) × Option SwErr
  | [], counts => (counts, Option.none)
  | c :: rest, counts =>
    let counts' := tallyKeys counts (caseKeysList c)
    if dictHas c "args" then
      (counts', some (.caseInvalidOption (dictGet c "case") "args"))
    else if dictHas c "deps" then
      (counts', some (.caseInvalidOption (dictGet c "case") "deps"))
    else
      match vd (.dict c) with
      | some msg => (counts', some (.caseIssue msg))
      | Option.none => switchCaseLoop vd rest counts'

/-- The duplicate-case check of `_validate_task_def` (lines 275-284)
followed by the `default`-option checks (lines 286-296). -/
def switchValidateCounts (td : SwitchTaskDef)
    (counts : List (PyVal × Nat)) : Option SwErr :=
  match counts.find? (fun e => decide (1 < e.2)) with
  | some e =>
    if pyEq e.1 (.str DEFAULT_CASE) then some .duplicateDefaultCase
    else some (.duplicateCase e.1)
  | Option.none =>
    match td.defaultOpt with
    | Option.none => Option.none
    | some dv =>
      if !pyIn dv [.str "pass", .str "fail"] then some (.badDefaultOption dv)
      else if counts.any (fun e => pyEq e.1 (.str DEFAULT_CASE)) then
        some .defaultOptionAndDefaultCase
      else Option.none

/-- Embeds `SwitchTask._validate_task_def`: control checks, the
per-case loop, the duplicate check, and the `default`-option checks, in
source order.  `vd` is the `PoeTask.validate_def` oracle used for the
control definition and each case definition. -/
def switchValidateTaskDef (vd : PyVal → Option String)
    (td : SwitchTaskDef) : Option SwErr :=
  match td.control with
  | Option.none => some .noControl
  | some ctrl =>
    if !pyTruthy ctrl then some .noControl
    else if controlTypeBad ctrl then some .badControlType
    else
      match vd ctrl with
      | some msg => some (.controlIssue msg)
      | Option.none =>
        match switchCaseLoop vd td.cases [] with
        | (_, some e) => some e
        | (counts, Option.none) => switchValidateCounts td counts

/-!
Section: Switch task resolution and instantiation
(`SwitchTask.TaskSpec.__init__`, switch.py lines 48-84, and
`SwitchTask.__init__`, lines 90-131)

`TaskSpec.__init__` registers each case's spec in the `case_specs`
dict under the key `SwitchTask.get_case_keys(case_task_def)`
(line 80-82).  `get_case_keys` is annotated `Tuple[Any, ...]` but
returns a Python `list` on every path (lines 218-220), and a list is
unhashable, so the dict assignment raises `TypeError` for the first
case.  `SwitchTask.__init__` instantiates the control task via
`from_spec(..., capture_stdout=True, ...)` (line 110) regardless of
the switch's own capture flag; its per-case loop then evaluates
`task_invocation: Tuple[str, ...] = (name,)` (line 118) — `name` is
not bound in any enclosing scope, so the loop raises `NameError` on
its first iteration.  Case specs are identified by their index.
-/

/-- Python hashability: lists and dicts are unhashable, tuples are
hashable iff their elements are. -/
def pyHashable : PyVal → Bool
  | .list _ => false
  | .dict _ => false
  | .tuple xs => pyHashableList xs
  | _ => true
where
  pyHashableList : List PyVal → Bool
    | [] => true
    | x :: xs => pyHashable x && pyHashableList xs

/-- Python `d[k] = v` for a dict keyed by arbitrary Python values: raises
`TypeError` when the key is unhashable; otherwise first-match in-place
assignment as for string-keyed dicts. -/
def dictSetItemAny (d : List (PyVal × Nat)) (k : PyVal) (v : Nat) :
    Except PyErr (List (PyVal × Nat)) :=
  if pyHashable k then
    .ok (if d.any (fun e => pyEq e.1 k) then
          d.map (fun e => if pyEq e.1 k then (e.1, v) else e)
        else d ++ [(k, v)])
  else .error (.typeError "unhashable type")

/-- The `case_specs` loop of `SwitchTask.TaskSpec.__init__` (lines
72-84): register the spec of the case at each index under the key
returned by `get_case_keys`. -/
def switchSpecCaseSpecsAux :
    List Dict → Nat → List (PyVal × Nat) → Except PyErr (List (PyVal × Nat))
  | [], _, acc => .ok acc
  | c :: rest, idx, acc =>
    match dictSetItemAny acc (get_case_keys c) idx with
    | .error e => .error e
    | .ok acc' => switchSpecCaseSpecsAux rest (idx + 1) acc'

/-- Embeds the `case_specs` construction of `SwitchTask.TaskSpec.__init__`. -/
def switchSpecCaseSpecs (caseDefs : List Dict) :
    Except PyErr (List (PyVal × Nat)) :=
  switchSpecCaseSpecsAux caseDefs 0 []

/-- What `SwitchTask.__init__` produces when it completes: whether the
control task was instantiated with stdout capture forced on, and the
`switch_tasks` dispatch table. -/
structure SwitchInitResult where
  controlCaptureStdout : Bool
  switchTasks : List (String × Nat)

/-- Embeds `SwitchTask.__init__` (lines 90-131): the control task is
instantiated with `capture_stdout=True` (line 110); the per-case loop
evaluates the unbound local `name` (line 118) and so raises
`NameError` on its first iteration, before registering anything. -/
def switchTaskInit (caseSpecs : List (PyVal × Nat)) :
    Except PyErr SwitchInitResult :=
  match caseSpecs with
  | [] => .ok { controlCaptureStdout := true, switchTasks := [] }
  | _ :: _ => .error (.nameError "name")

/-!
Section: Options schema (`PoeOptions`, options.py)

A field declaration carries the field's name, its type annotation as
written, and its literal class-level default if any (a class attribute
found by `getattr`).  Type annotations are modelled by `Ann`, keeping
exactly the distinctions the code observes: `get_origin` recognises
subscripted mapping-like (`Mapping[...]`/`Dict[...]`/
`MutableMapping[...]`) and sequence-like (`Sequence[...]`/`List[...]`)
annotations and `Union[...]`; everything else is a plain class.
Argument types of subscripted generics are never inspected, so they
are not recorded.  `isinstance` against a subscripted generic raises
`TypeError` in Python; `type_of` only collapses mapping-like and
sequence-like annotations at the top level, so union members stay
subscripted.

Attribute lookup (`hasattr`/`getattr` in `PoeOptions.get`, options.py
lines 23-26) sees three layers: the instance dict (values bound by
`__init__`), then the class namespace — which holds both the literal
field defaults and every other class attribute: the methods `get`,
`is_set`, `update`, `type_of`, `get_fields` defined by `PoeOptions`
and the dunder attributes inherited from `object` — then the
caller-supplied default.  The non-field class attributes are threaded
as explicit data (`classAttrs`, with bound methods as `boundMethod`
values); because of them, `get` of an undeclared key that names a
method returns that method rather than raising `KeyError`.
-/

/-- A type annotation as written in an options class body. -/
inductive Ann where
  | aStr : Ann
  | aBool : Ann
  | aInt : Ann
  | aAny : Ann
  | aDictCls : Ann
  | aListCls : Ann
  | aMapOf : Ann
  | aSeqOf : Ann
  | aUnion (ms : List Ann) : Ann

/-- A declared options field: name, annotation, optional literal
default (class attribute). -/
structure FieldDecl where
  name : String
  ann : Ann
  dflt : Option PyVal

/-- The result of `PoeOptions.type_of` (options.py lines 45-67): the
member tuple of a union (`get_args`), or a single class — subscripted
mapping-like/sequence-like annotations collapse to plain `dict`/`list`,
anything else is returned as-is. -/
inductive TypeOfResult where
  | single (a : Ann) : TypeOfResult
  | members (ms : List Ann) : TypeOfResult

/-- Embeds `PoeOptions.type_of` on an annotation. -/
def type_of_ann : Ann → TypeOfResult
  | .aUnion ms => .members ms
  | .aMapOf => .single .aDictCls
  | .aSeqOf => .single .aListCls
  | a => .single a

/-- Python `isinstance(v, a)` for a single annotation: a class check,
or `TypeError` when `a` is not a class (subscripted generic, `Any`,
union object).  `bool` is a subclass of `int`. -/
def isinstanceCls (v : PyVal) : Ann → Except PyErr Bool
  | .aStr => .ok (match v with | .str _ => true | _ => false)
  | .aBool => .ok (match v with | .bool _ => true | _ => false)
  | .aInt => .ok (match v with | .int _ => true | .bool _ => true | _ => false)
  | .aDictCls => .ok (match v with | .dict _ => true | _ => false)
  | .aListCls => .ok (match v with | .list _ => true | _ => false)
  | .aAny => .error (.typeError "isinstance() arg 2 must be a type")
  | .aMapOf => .error (.typeError "subscripted generics cannot be used")
  | .aSeqOf => .error (.typeError "subscripted generics cannot be used")
  | .aUnion _ => .error (.typeError "subscripted generics cannot be used")

/-- Python `isinstance(v, tuple_of_annotations)`: try each member in
order, return `True` on the first match, raise on a non-class member
reached before any match. -/
def isinstanceTuple (v : PyVal) : List Ann → Except PyErr Bool
  | [] => .ok false
  | a :: rest =>
    match isinstanceCls v a with
    | .error e => .error e
    | .ok true => .ok true
    | .ok false => isinstanceTuple v rest

/-- Embeds `ConfigPartition.is_option_type_valid` (config.py lines
51-54) on the already-bound value: `isinstance(value, type_of(key))`. -/
def isOptionTypeValid (v : PyVal) (a : Ann) : Except PyErr Bool :=
  match type_of_ann a with
  | .single c => isinstanceCls v c
  | .members ms => isinstanceTuple v ms

/-- The no-argument construction `T()` used by `PoeOptions.get` for an
unset field: `str() = ""`, `bool() = False`, `int() = 0`,
`dict() = {}`, `list() = []`; calling a subscripted abstract generic or
a non-class raises `TypeError`. -/
def constructAnn : Ann → Except PyErr PyVal
  | .aStr => .ok (.str "")
  | .aBool => .ok (.bool false)
  | .aInt => .ok (.int 0)
  | .aDictCls => .ok (.dict [])
  | .aListCls => .ok (.list [])
  | .aAny => .error (.typeError "cannot instantiate")
  | .aMapOf => .error (.typeError "cannot instantiate subscripted generic")
  | .aSeqOf => .error (.typeError "cannot instantiate subscripted generic")
  | .aUnion _ => .error (.typeError "cannot instantiate")

/-- The Python keywords (`keyword.iskeyword`). -/
def pythonKeywords : List String :=
  ["False", "None", "True", "and", "as", "assert", "async", "await",
   "break", "class", "continue", "def", "del", "elif", "else", "except",
   "finally", "for", "from", "global", "if", "import", "in", "is",
   "lambda", "nonlocal", "not", "or", "pass", "raise", "return", "try",
   "while", "with", "yield"]

/-- Embeds `keyword.iskeyword`. -/
def isPyKeyword (s : String) : Bool :=
  pythonKeywords.contains s

/-- Embeds `PoeOptions.__init__` (options.py lines 11-14): bind, for
each declared field in order, the input value under that name if the
input dict has the key. -/
def optionsBind : List FieldDecl → Dict → Dict
  | [], _ => []
  | f :: rest, optionsDict =>
    match dictGet optionsDict f.name with
    | some v => (f.name, v) :: optionsBind rest optionsDict
    | Option.none => optionsBind rest optionsDict

/-- Embeds `get_fields()[key]` as a lookup. -/
def findField (fields : List FieldDecl) (key : String) : Option FieldDecl :=
  fields.find? (fun f => f.name = key)

/-- The class-namespace attributes a `PoeOptions` instance exposes
besides bound values and literal field defaults: the methods the class
hierarchy defines.  Python attribute lookup falls back to these (and
to the many dunder attributes inherited from `object`), so
`hasattr(self, key)` is true and `getattr(self, key, d)` returns the
bound method for any such name; the embedding threads this namespace
as explicit data (`classAttrs`).  The methods `PoeOptions` itself
defines, for the concrete instantiations below. -/
def poeOptionsMethods : List (String × PyVal) :=
  [("get", .boundMethod "get"),
   ("is_set", .boundMethod "is_set"),
   ("update", .boundMethod "update"),
   ("type_of", .boundMethod "type_of"),
   ("get_fields", .boundMethod "get_fields")]

/-- Python `hasattr(self, key)` on a bound options object: an explicit
bound value, a class-level field default, or any other class-namespace
attribute (a method, a dunder) exists under the name. -/
def optHasattr (classAttrs : List (String × PyVal)) (fields : List FieldDecl)
    (bound : Dict) (key : String) : Bool :=
  (dictGet bound key).isSome ||
    (match findField fields key with
     | some f => f.dflt.isSome
     | Option.none => false) ||
    (lookupS classAttrs key).isSome

/-- Python `getattr(self, key, d)` on a bound options object: the
bound value from the instance dict, else the class-namespace attribute
under the name (a literal field default, or a method when no default
is assigned), else `d` (where `d = Option.none` stands for the
`NoValue` sentinel). -/
def optGetattr (classAttrs : List (String × PyVal)) (fields : List FieldDecl)
    (bound : Dict) (key : String) (d : Option PyVal) : Option PyVal :=
  match dictGet bound key with
  | some v => some v
  | Option.none =>
    match findField fields key with
    | some f =>
      match f.dflt with
      | some dv => some dv
      | Option.none =>
        match lookupS classAttrs key with
        | some mv => some mv
        | Option.none => d
    | Option.none =>
      match lookupS classAttrs key with
      | some mv => some mv
      | Option.none => d

/-- Embeds `PoeOptions.get` (options.py lines 19-32): normalise a
keyword key by appending `_`; raise `KeyError` when the name is
neither set nor declared; otherwise take the bound value, the class
default, or the caller's default, and when all are absent (`NoValue`)
construct a type-driven empty value — the first union member's
no-argument construction for a union annotation, `T()` for the single
class `type_of` resolves to otherwise. -/
def optGet (classAttrs : List (String × PyVal)) (fields : List FieldDecl)
    (bound : Dict) (key0 : String) (dflt : Option PyVal) : Except PyErr PyVal :=
  let key := if isPyKeyword key0 then key0 ++ "_" else key0
  if !optHasattr classAttrs fields bound key
      && !(fields.any (fun f => f.name = key)) then
    .error (.keyError key)
  else
    match optGetattr classAttrs fields bound key dflt with
    | some v => .ok v
    | Option.none =>
      match findField fields key with
      | Option.none => .error (.keyError key)
      | some f =>
        match type_of_ann f.ann with
        | .members [] => .error (.indexError)
        | .members (m :: _) => constructAnn m
        | .single c => constructAnn c

/-- Does a result hold a `KeyError`? -/
def isKeyErrorRes {α : Type} : Except PyErr α → Bool
  | .error (.keyError _) => true
  | _ => false

/-!
Section: Config validation (`PoeConfig._validate_config`, config.py lines 205-287)

The declared fields of `ProjectConfig.ConfigOptions` (config.py lines
57-74), in declaration order, with their literal class defaults.  The
first two validation steps are embedded: rejecting unsupported keys
(lines 212-215) and checking each present option value's runtime type
(lines 217-225).  The raise in the type-check branch formats an
f-string that references `option_type` — a name bound nowhere in
`_validate_config` or at module level — so reaching that branch raises
`NameError: name 'option_type' is not defined` instead of the intended
`PoeException`.  Later steps (executor, default task types, env
entries, per-task validation, shell interpreter, verbosity range) are
not reached when the type check trips and are not modelled.
-/

/-- The `ProjectConfig.ConfigOptions` field table (config.py lines 57-74). -/
def projectConfigFields : List FieldDecl :=
  [⟨"default_task_type", .aStr, some (.str "cmd")⟩,
   ⟨"default_array_task_type", .aStr, some (.str "sequence")⟩,
   ⟨"default_array_item_task_type", .aStr, some (.str "ref")⟩,
   ⟨"env", .aMapOf, Option.none⟩,
   ⟨"envfile", .aUnion [.aStr, .aSeqOf], Option.none⟩,
   ⟨"executor", .aMapOf, Option.none⟩,
   ⟨"include", .aUnion [.aStr, .aSeqOf, .aMapOf], Option.none⟩,
   ⟨"poetry_command", .aStr, Option.none⟩,
   ⟨"poetry_hooks", .aMapOf, Option.none⟩,
   ⟨"shell_interpreter", .aUnion [.aStr, .aSeqOf], some (.str "posix")⟩,
   ⟨"verbosity", .aInt, some (.int 0)⟩,
   ⟨"tasks", .aMapOf, Option.none⟩]

/-- The type-check loop of `_validate_config` (config.py lines
218-225): for each supported option present in the raw poe config whose
value fails `is_option_type_valid`, the raise statement's message
f-string evaluates the unbound name `option_type`, so the loop raises
`NameError` at the first violation (or propagates the `TypeError`
`isinstance` itself raises on a subscripted-generic union member). -/
def checkOptionTypes : List FieldDecl → Dict → Except PyErr Unit
  | [], _ => .ok ()
  | f :: rest, raw =>
    match dictGet raw f.name with
    | Option.none => checkOptionTypes rest raw
    | some v =>
      match isOptionTypeValid v f.ann with
      | .error e => .error e
      | .ok true => checkOptionTypes rest raw
      | .ok false => .error (.nameError "option_type")

/-- The first two steps of `_validate_config`: unsupported-key
rejection, then the per-option type check. -/
def validateConfigKeysAndTypes (raw : Dict) : Except PyErr Unit :=
  if raw.any (fun e => !(projectConfigFields.any (fun f => f.name = e.1))) then
    .error (.poeException "Unsupported keys in poe config")
  else checkOptionTypes projectConfigFields raw

/-- Is an exception a `PoeException`? -/
def isPoeExceptionPE : PyErr → Bool
  | .poeException _ => true
  | _ => false

/-- Does a result hold a `PoeException`? -/
def isPoeExceptionErr {α : Type} : Except PyErr α → Bool
  | .error e => isPoeExceptionPE e
  | .ok _ => false

/-!
Section: Field discovery (`PoeOptions.get_fields`, options.py lines 69-85)

```python
@classmethod
def get_fields(cls) -> Dict[str, Any]:
    """
    Recent python versions removed inheritance for __annotations__
    so we have to implement it explicitly
    """
    if not hasattr(cls, "__annotations"):
        annotations = {}
        for base_cls in cls.__bases__:
            annotations.update(base_cls.__annotations__)
        annotations.update(cls.__annotations__)
        cls.__annotations = {
            key: type_ for key, type_ in annotations.items()
            if not key.startswith("_")
        }
    return cls.__annotations
```

Options classes form single-inheritance chains rooted at `PoeOptions`
(whose only own annotation is the name-mangled private
`_PoeOptions__annotations`, filtered out as underscore-prefixed).  On
Python ≥ 3.10 — the behaviour the docstring refers to —
`cls.__annotations__` yields only the class's own annotations (an
empty dict, lazily created, when it declares none), with no fallback
to ancestors.  The merge therefore sees only the direct base's own
annotations plus the class's own; annotations of earlier ancestors
are not collected.  (The cache line is ineffective either way:
`hasattr(cls, "__annotations")` tests the unmangled name while the
assignment stores under `_PoeOptions__annotations`, so the body
recomputes on every call — returning equal values, so `get_fields` is
extensionally a pure function of the class, as modelled.)
-/

/-- A `PoeOptions` class: the root, or a subclass of another options
class with its own annotation names (in declaration order). -/
inductive OptionsClass where
  | poeOptions : OptionsClass
  | subclass (base : OptionsClass) (own : List String) : OptionsClass

/-- Python `key.startswith("_")`: the first character is an underscore. -/
def startsWithUnderscore (s : String) : Bool :=
  match s.data with
  | [] => false
  | c :: _ => c = '_'

/-- Embeds `cls.__annotations__` under Python ≥ 3.10: the class's own
annotations only. -/
def annotationsAttr : OptionsClass → List String
  | .poeOptions => ["_PoeOptions__annotations"]
  | .subclass _ own => own

/-- Embeds `dict.update` on annotation dicts, seen on key lists: keys of the
second argument overwrite in place, new keys are appended. -/
def updateKeys (d u : List String) : List String :=
  d ++ u.filter (fun k => !d.contains k)

/-- Embeds `PoeOptions.get_fields`: merge each direct base's
`__annotations__` then the class's own, and drop underscore-prefixed
names.  (`PoeOptions.__bases__ = (object,)` contributes nothing.) -/
def get_fields : OptionsClass → List String
  | .poeOptions =>
    (updateKeys [] ["_PoeOptions__annotations"]).filter
      (fun k => !startsWithUnderscore k)
  | .subclass base own =>
    (updateKeys (annotationsAttr base) own).filter (fun k => !startsWithUnderscore k)

/-- The annotation names declared on the class and on all of its
ancestors, merged down the chain. -/
def allAncestorFields : OptionsClass → List String
  | .poeOptions => ["_PoeOptions__annotations"]
  | .subclass base own => updateKeys (allAncestorFields base) own

/-- Modelled from the spec: "the union of all ancestor and own declared
fields excluding any name starting with an underscore" — the field set
C8 claims `get_fields` returns. -/
def specGetFields (c : OptionsClass) : List String :=
  (allAncestorFields c).filter (fun k => !startsWithUnderscore k)

/-- A three-level chain: `C1 <: PoeOptions` declaring `x`,
`C2 <: C1` declaring `y`, `C3 <: C2` declaring `z`. -/
def chainC1 : OptionsClass := .subclass .poeOptions ["x"]

/-- Second level of the chain. -/
def chainC2 : OptionsClass := .subclass chainC1 ["y"]

/-- Third level of the chain. -/
def chainC3 : OptionsClass := .subclass chainC2 ["z"]

/-!
Section: Include loading (`PoeConfig._load_includes`, config.py lines 349-373)

The per-include loop, after the `include` option has been normalised
to a list of `{path, cwd?}` records:

```python
for include in includes:
    include_path = self._project_dir.joinpath(include["path"]).resolve()
    if not include_path.exists():
        continue
    try:
        self._included_config.append(IncludedConfig(
            self._read_config_file(include_path),
            cwd=include.get("cwd", self.project_dir),
            path=include_path))
    except (PoeException, KeyError) as error:
        raise PoeException(
            f"Invalid content in included file from {include_path}", error) from error
```

The filesystem is a function from resolved paths to `Option` file
contents (`Option.none` = file does not exist); an existing file either
yields the parsed poe-options mapping or a load failure
(`_read_config_file`'s parse/open `PoeException`, or the `KeyError`
raised by `ConfigPartition.__init__` when the poe section is absent) —
both caught and wrapped.  `joinPath` abstracts
`Path.joinpath(...).resolve()`.
-/

/-- A normalised include record (`{path, cwd?}`). -/
structure IncludeItem where
  path : String
  cwd : Option String

/-- Why loading an existing include file can fail. -/
inductive IncludeLoadFailure where
  | parseFailure (msg : String) : IncludeLoadFailure
  | missingPoeSection : IncludeLoadFailure

/-- A successfully loaded `IncludedConfig`. -/
structure LoadedInclude where
  path : String
  poeOptions : Dict
  cwd : String

/-- Embeds `project_dir.joinpath(rel).resolve()`, abstracted. -/
def joinPath (dir rel : String) : String :=
  dir ++ "/" ++ rel

/-- Embeds the `_load_includes` loop over the normalised include
records: resolve each path against the project directory, silently
skip a missing file, wrap any load failure of an existing file in a
`PoeException` naming the include path, and scope each loaded config
to its own `cwd` defaulting to the project directory. -/
def loadIncludes (projectDir : String)
    (fs : String → Option (Except IncludeLoadFailure Dict)) :
    List IncludeItem → Except PyErr (List LoadedInclude)
  | [] => .ok []
  | inc :: rest =>
    match fs (joinPath projectDir inc.path) with
    | Option.none => loadIncludes projectDir fs rest
    | some (.error _) =>
      .error (.poeException
        ("Invalid content in included file from " ++ joinPath projectDir inc.path))
    | some (.ok conf) =>
      match loadIncludes projectDir fs rest with
      | .error e => .error e
      | .ok loaded =>
        .ok ({ path := joinPath projectDir inc.path, poeOptions := conf,
               cwd := inc.cwd.getD projectDir } :: loaded)

/-- Is a result `.ok`? -/
def isOkE {ε α : Type} : Except ε α → Bool
  | .ok _ => true
  | .error _ => false

/-- Does the filesystem hold a file that exists but fails to load? -/
def isBadFile (r : Option (Except IncludeLoadFailure Dict)) : Bool :=
  match r with
  | some (.error _) => true
  | _ => false

/-!
Section: Sequence task instantiation (`SequenceTask.__init__`, sequence.py lines 65-87)

```python
def __init__(self, spec, invocation, ui, config,
             capture_stdout=False, inheritance=None):
    assert capture_stdout in (False, None)
    super().__init__(spec, invocation, ui, config, False, inheritance)
    ...
```

The `capture_stdout` argument is an arbitrary Python value checked by
`in (False, None)` (membership via `==`); on success the base
constructor always receives the literal `False`.  (`from_spec`, the
instantiation entry point defined in task/base.py, defaults
`capture_stdout` to `False`, as `SequenceTask.__init__`'s own signature
shows for its recursive subtask instantiation.)
-/

/-- Embeds the `capture_stdout` handling of `SequenceTask.__init__`:
the assertion, and the capture flag the base constructor receives when
the assertion passes. -/
def sequenceTaskInitCapture (captureStdout : PyVal) : Except PyErr Bool :=
  if pyIn captureStdout [.bool false, .none] then
    .ok false
  else .error .assertionError

theorem dictGet_of_not_mem {d : Dict} {k : String}
    (h : ∀ e ∈ d, e.1 ≠ k) : dictGet d k = Option.none := by
  induction d with
  | nil => rfl
  | cons e rest ih =>
    obtain ⟨k', v⟩ := e
    simp only [dictGet]
    rw [if_neg (h (k', v) (by simp))]
    exact ih (fun e' he' => h e' (by simp [he']))

theorem dictGet_dictSet_self (d : Dict) (k : String) (v : PyVal) :
    dictGet (dictSet d k v) k = some v := by
  induction d with
  | nil => simp [dictSet, dictGet]
  | cons e rest ih =>
    obtain ⟨k', v'⟩ := e
    by_cases he : k' = k
    · simp [dictSet, he, dictGet]
    · simp only [dictSet, if_neg he, dictGet]
      exact ih

theorem dictGet_dictSet_other (d : Dict) (k k' : String) (v : PyVal)
    (hne : k' ≠ k) : dictGet (dictSet d k v) k' = dictGet d k' := by
  induction d with
  | nil =>
    simp only [dictSet, dictGet]
    rw [if_neg (fun h => hne h.symm)]
  | cons e rest ih =>
    obtain ⟨k0, v0⟩ := e
    by_cases he : k0 = k
    · subst he
      simp only [dictSet, if_pos rfl, dictGet]
      rw [if_neg (fun h => hne h.symm), if_neg (fun h => hne h.symm)]
    · simp only [dictSet, if_neg he, dictGet]
      by_cases he' : k0 = k'
      · simp [he']
      · rw [if_neg he', if_neg he']
        exact ih

theorem dictGet_dictUpdate (d u : Dict) (k : String) (hu : nodupKeys u) :
    dictGet (dictUpdate d u) k = orElseO (dictGet u k) (dictGet d k) := by
  induction u generalizing d with
  | nil => simp [dictUpdate, dictGet, orElseO]
  | cons e u' ih =>
    obtain ⟨k0, v0⟩ := e
    have hu1 : (k0 :: u'.map Prod.fst).Nodup := hu
    obtain ⟨hk0, hu'nd⟩ := List.nodup_cons.mp hu1
    have hu' : nodupKeys u' := hu'nd
    have step : dictUpdate d ((k0, v0) :: u') = dictUpdate (dictSet d k0 v0) u' := by
      simp [dictUpdate]
    rw [step, ih _ hu']
    by_cases hk : k = k0
    · subst hk
      have hu'none : dictGet u' k = Option.none := by
        apply dictGet_of_not_mem
        intro e' he' heq
        exact hk0 (heq ▸ List.mem_map_of_mem Prod.fst he')
      simp [dictGet, hu'none, orElseO, dictGet_dictSet_self]
    · rw [dictGet_dictSet_other _ _ _ _ hk]
      simp only [dictGet]
      rw [if_neg (fun h => hk h.symm)]

theorem configTasks_merged_lookup (includedTasks : List Dict) (k : String)
    (h : ∀ d ∈ includedTasks, nodupKeys d) :
    dictGet (includedTasks.reverse.foldl dictUpdate []) k
      = firstIncludeGet includedTasks k := by
  induction includedTasks with
  | nil => simp [dictGet, firstIncludeGet]
  | cons d rest ih =>
    have hstep : (d :: rest).reverse.foldl dictUpdate ([] : Dict)
        = dictUpdate (rest.reverse.foldl dictUpdate []) d := by
      simp [List.foldl_append]
    rw [hstep, dictGet_dictUpdate _ _ _ (h d (by simp)), firstIncludeGet,
      ih (fun d' hd' => h d' (by simp [hd']))]

/-- C2: the merged task table overlays the included configs' tasks in
reverse declaration order and the root project's own tasks last, so for
every key the root config's binding wins if present, else the
earliest-declared include binding the key wins; in particular root
tasks `{"a": A}` with includes `[{"b": B1}, {"a": B2, "c": C}]` merge
to the mapping `{"b": B1, "a": A, "c": C}` (Python dict equality is
content equality, expressed here as pointwise `dictGet` agreement). -/
theorem configTasks_root_wins_and_earlier_include_beats_later
    (includedTasks : List Dict) (projectTasks : Dict) (k : String)
    (hproj : nodupKeys projectTasks) (hinc : ∀ d ∈ includedTasks, nodupKeys d) :
    dictGet (configTasks includedTasks projectTasks) k
        = orElseO (dictGet projectTasks k) (firstIncludeGet includedTasks k)
      ∧ ∀ k' : String,
          dictGet (configTasks
              [[("b", PyVal.str "B1")], [("a", PyVal.str "B2"), ("c", PyVal.str "C")]]
              [("a", PyVal.str "A")]) k'
            = dictGet
                [("b", PyVal.str "B1"), ("a", PyVal.str "A"), ("c", PyVal.str "C")] k' := by
  constructor
  · rw [configTasks, dictGet_dictUpdate _ _ _ hproj,
      configTasks_merged_lookup _ _ hinc]
  · intro k'
    have hval : configTasks
        [[("b", PyVal.str "B1")], [("a", PyVal.str "B2"), ("c", PyVal.str "C")]]
        [("a", PyVal.str "A")]
        = [("a", PyVal.str "A"), ("c", PyVal.str "C"), ("b", PyVal.str "B1")] := by
      rfl
    rw [hval]
    by_cases h1 : k' = "a"
    · simp [dictGet, h1]
    · by_cases h2 : k' = "b"
      · simp [dictGet, h2]
      · by_cases h3 : k' = "c"
        · simp [dictGet, h3]
        · simp only [dictGet]
          rw [if_neg (fun h => h1 h.symm), if_neg (fun h => h3 h.symm),
            if_neg (fun h => h2 h.symm), if_neg (fun h => h2 h.symm),
            if_neg (fun h => h1 h.symm), if_neg (fun h => h3 h.symm)]

/-- Witness for `configTasks_root_wins_and_earlier_include_beats_later`:
the precedence law applied at the spec's own example, showing the root
task table wins for key `"a"`. -/
theorem configTasks_root_wins_witness :
    dictGet (configTasks
        [[("b", PyVal.str "B1")], [("a", PyVal.str "B2"), ("c", PyVal.str "C")]]
        [("a", PyVal.str "A")]) "a"
      = orElseO (dictGet [("a", PyVal.str "A")] "a")
          (firstIncludeGet
            [[("b", PyVal.str "B1")], [("a", PyVal.str "B2"), ("c", PyVal.str "C")]] "a") :=
  (configTasks_root_wins_and_earlier_include_beats_later
    [[("b", PyVal.str "B1")], [("a", PyVal.str "B2"), ("c", PyVal.str "C")]]
    [("a", PyVal.str "A")] "a" (by simp [nodupKeys])
    (by intro d hd; fin_cases hd <;> simp [nodupKeys])).1

theorem seqRunAux_run_all (ignoreFail : PyVal)
    (htruthy : pyTruthy ignoreFail = true) (subtasks : List SubTask)
    (acc : List String) :
    seqRunAux ignoreFail subtasks acc
      = (subtasks.map SubTask.name,
          if pyEq ignoreFail (.str "return_non_zero")
              && !(acc ++ failingNames subtasks).isEmpty then
            .error (.subtasksNonZero (acc ++ failingNames subtasks))
          else .ok 0) := by
  induction subtasks generalizing acc with
  | nil =>
    simp only [seqRunAux, failingNames, List.filter_nil, List.map_nil,
      List.append_nil]
    rw [Bool.and_comm]
  | cons t rest ih =>
    have habort : ¬((t.exitCode != 0 && !pyTruthy ignoreFail) = true) := by
      rw [htruthy]; simp
    by_cases hfail : (t.exitCode != 0) = true
    · have hnames : acc ++ failingNames (t :: rest)
          = (acc ++ [t.name]) ++ failingNames rest := by
        simp [failingNames, List.filter_cons, hfail]
      simp only [seqRunAux]
      rw [if_neg habort, if_pos hfail, ih (acc ++ [t.name]), hnames]
      simp
    · have hnames : acc ++ failingNames (t :: rest) = acc ++ failingNames rest := by
        simp only [failingNames, List.filter_cons]
        rw [if_neg hfail]
      simp only [seqRunAux]
      rw [if_neg habort, if_neg hfail, ih acc, hnames]
      simp

theorem seqRunAux_abort (pre : List SubTask) (t : SubTask) (post : List SubTask)
    (hpre : ∀ s ∈ pre, s.exitCode = 0) (ht : t.exitCode ≠ 0) (acc : List String) :
    seqRunAux (PyVal.bool false) (pre ++ t :: post) acc
      = (pre.map SubTask.name ++ [t.name], .error (.abortedAfter t.name)) := by
  induction pre generalizing acc with
  | nil =>
    simp only [List.nil_append, seqRunAux, List.map_nil]
    rw [if_pos (by simp [pyTruthy, ht])]
  | cons s pre' ih =>
    have hs : s.exitCode = 0 := hpre s (by simp)
    have hcond : ¬((s.exitCode != 0 && !pyTruthy (PyVal.bool false)) = true) := by
      simp [hs]
    have hfail : ¬((s.exitCode != 0) = true) := by simp [hs]
    simp only [List.cons_append, seqRunAux, List.append_eq]
    rw [if_neg hcond, if_neg hfail,
      ih (fun s' hs' => hpre s' (by simp [hs'])) acc]
    simp

/-- C3: subtasks of a sequence run strictly in declaration order; with
`ignore_fail` false (the default) the first failing subtask stops
execution immediately with an execution error naming it, and later
subtasks never run; with `ignore_fail == "return_non_zero"` all
subtasks run and the sequence fails listing every failing subtask's
name iff at least one failed; with `ignore_fail` true or
`"return_zero"` all subtasks run and the sequence reports success
regardless of failures. -/
theorem sequence_ignore_fail_semantics (subtasks : List SubTask) :
    (∀ pre t post, subtasks = pre ++ t :: post → (∀ s ∈ pre, s.exitCode = 0) →
        t.exitCode ≠ 0 →
        seqRun (PyVal.bool false) subtasks
          = (pre.map SubTask.name ++ [t.name], .error (.abortedAfter t.name)))
      ∧ seqRun (PyVal.str "return_non_zero") subtasks
          = (subtasks.map SubTask.name,
              if (failingNames subtasks).isEmpty then .ok 0
              else .error (.subtasksNonZero (failingNames subtasks)))
      ∧ seqRun (PyVal.bool true) subtasks = (subtasks.map SubTask.name, .ok 0)
      ∧ seqRun (PyVal.str "return_zero") subtasks
          = (subtasks.map SubTask.name, .ok 0) := by
  refine ⟨?_, ?_, ?_, ?_⟩
  · intro pre t post hsplit hpre ht
    unfold seqRun
    rw [hsplit]
    exact seqRunAux_abort pre t post hpre ht []
  · unfold seqRun
    rw [seqRunAux_run_all _ (by simp [pyTruthy]) _ []]
    simp only [List.nil_append]
    have hpy : pyEq (PyVal.str "return_non_zero") (PyVal.str "return_non_zero")
        = true := by simp [pyEq]
    rw [hpy, Bool.true_and]
    by_cases hemp : (failingNames subtasks).isEmpty
    · rw [hemp, if_pos rfl]
      simp
    · rw [Bool.not_eq_true] at hemp
      rw [hemp]
      simp
  · unfold seqRun
    rw [seqRunAux_run_all _ (by simp [pyTruthy]) _ []]
    have hpy : pyEq (PyVal.bool true) (PyVal.str "return_non_zero") = false := rfl
    rw [hpy, Bool.false_and, if_neg (by simp)]
  · unfold seqRun
    rw [seqRunAux_run_all _ (by simp [pyTruthy]) _ []]
    have hpy : pyEq (PyVal.str "return_zero") (PyVal.str "return_non_zero")
        = false := by simp [pyEq]
    rw [hpy, Bool.false_and, if_neg (by simp)]

/-- Witness for `sequence_ignore_fail_semantics`: the spec's
`[ok, fail, ok]` example.  With `ignore_fail: false` the run stops
after the second subtask and the third never runs; with
`"return_non_zero"` all three run and the failure lists the failing
subtask. -/
theorem sequence_ignore_fail_semantics_witness :
    seqRun (PyVal.bool false) [⟨"s[0]", 0⟩, ⟨"s[1]", 1⟩, ⟨"s[2]", 0⟩]
        = (["s[0]", "s[1]"], .error (.abortedAfter "s[1]"))
      ∧ seqRun (PyVal.str "return_non_zero") [⟨"s[0]", 0⟩, ⟨"s[1]", 1⟩, ⟨"s[2]", 0⟩]
        = (["s[0]", "s[1]", "s[2]"], .error (.subtasksNonZero ["s[1]"])) := by
  have h := sequence_ignore_fail_semantics [⟨"s[0]", 0⟩, ⟨"s[1]", 1⟩, ⟨"s[2]", 0⟩]
  refine ⟨?_, ?_⟩
  · have := h.1 [⟨"s[0]", 0⟩] ⟨"s[1]", 1⟩ [⟨"s[2]", 0⟩] rfl
      (by intro s hs; simp at hs; simp [hs]) (by decide)
    simpa using this
  · have := h.2.1
    simpa [failingNames] using this

/-- C4: when a switch task runs outside dry-run and its control task
succeeds, the captured control output is matched by exact equality
against the registered case keys, falling back to the `DEFAULT_CASE`
entry if one exists; if still unmatched, the switch returns success
without running any case iff its `default` option is `"pass"`, and
otherwise raises an execution error naming the unmatched value; if
matched, the matched case task is run and its result returned
unchanged. -/
theorem switch_dispatch_semantics (s : SwitchState)
    (hctrl : s.controlResult = 0) (hdry : s.dry = false) :
    (∀ caseId, lookupS s.switchTasks s.controlOutput = some caseId →
        switchHandleRun s = (some caseId, .ok (s.caseRun caseId)))
      ∧ (∀ caseId, lookupS s.switchTasks s.controlOutput = Option.none →
          lookupS s.switchTasks DEFAULT_CASE = some caseId →
          switchHandleRun s = (some caseId, .ok (s.caseRun caseId)))
      ∧ (lookupS s.switchTasks s.controlOutput = Option.none →
          lookupS s.switchTasks DEFAULT_CASE = Option.none →
          (switchHandleRun s = (Option.none, .ok 0) ↔ s.defaultOpt = some "pass")
            ∧ (s.defaultOpt ≠ some "pass" →
                switchHandleRun s
                  = (Option.none, .error (.unmatchedCase s.controlOutput s.name)))) := by
  have hbase : ∀ r, (match orElseA (lookupS s.switchTasks s.controlOutput)
        (lookupS s.switchTasks DEFAULT_CASE) with
      | Option.none =>
        if s.defaultOpt.getD "fail" = "pass" then (Option.none, Except.ok 0)
        else (Option.none, Except.error (.unmatchedCase s.controlOutput s.name))
      | some caseId => (some caseId, Except.ok (s.caseRun caseId))) = r →
      switchHandleRun s = r := by
    intro r hr
    rw [switchHandleRun, hctrl, hdry]
    simpa using hr
  refine ⟨?_, ?_, ?_⟩
  · intro caseId hhit
    exact hbase _ (by rw [hhit]; rfl)
  · intro caseId hmiss hdef
    exact hbase _ (by rw [hmiss, hdef]; rfl)
  · intro hmiss hdef
    constructor
    · constructor
      · intro hrun
        rw [switchHandleRun, hctrl, hdry] at hrun
        simp only [orElseA, hmiss, hdef] at hrun
        by_cases hp : s.defaultOpt.getD "fail" = "pass"
        · match hopt : s.defaultOpt with
          | Option.none => rw [hopt] at hp; simp at hp
          | some v =>
            rw [hopt] at hp
            simp only [Option.getD_some] at hp
            rw [hp]
        · rw [if_neg hp] at hrun
          simp at hrun
      · intro hpass
        refine hbase _ ?_
        rw [hmiss, hdef, hpass]
        simp [orElseA]
    · intro hne
      refine hbase _ ?_
      rw [hmiss, hdef]
      simp only [orElseA]
      rw [if_neg ?_]
      intro hp
      match hopt : s.defaultOpt with
      | Option.none => rw [hopt] at hp; simp at hp
      | some v =>
        rw [hopt] at hp
        simp only [Option.getD_some] at hp
        exact hne (by rw [hopt, hp])

/-- Witness for `switch_dispatch_semantics`: control output `"b"` with
cases keyed `"a"`, `["b", "c"]` (one task fanned out to both keys) and
a default case dispatches to the `["b", "c"]` case task; in a second
state with unmatched output and no default case, `default: "pass"`
yields success without running any case. -/
theorem switch_dispatch_semantics_witness :
    switchHandleRun
        { name := "sw", controlResult := 0, controlOutput := "b", dry := false,
          switchTasks := [("a", 0), ("b", 1), ("c", 1), (DEFAULT_CASE, 2)],
          caseRun := fun _ => 0, defaultOpt := Option.none }
      = (some 1, .ok 0)
      ∧ switchHandleRun
          { name := "sw", controlResult := 0, controlOutput := "z", dry := false,
            switchTasks := [("a", 0)], caseRun := fun _ => 0,
            defaultOpt := some "pass" }
        = (Option.none, .ok 0) := by
  constructor
  · exact (switch_dispatch_semantics
      { name := "sw", controlResult := 0, controlOutput := "b", dry := false,
        switchTasks := [("a", 0), ("b", 1), ("c", 1), (DEFAULT_CASE, 2)],
        caseRun := fun _ => 0, defaultOpt := Option.none } rfl rfl).1 1 (by
          simp [lookupS])
  · exact ((switch_dispatch_semantics
      { name := "sw", controlResult := 0, controlOutput := "z", dry := false,
        switchTasks := [("a", 0)], caseRun := fun _ => 0,
        defaultOpt := some "pass" } rfl rfl).2.2 (by simp [lookupS])
        (by simp [lookupS, DEFAULT_CASE])).1.mpr rfl

theorem pyEq_refl : (v : PyVal) → pyEq v v = true
  | .none => rfl
  | .bool b => by simp [pyEq]
  | .int n => by simp [pyEq]
  | .str s => by simp [pyEq]
  | .list [] => rfl
  | .list (x :: xs) => by
    have h1 := pyEq_refl x
    have h2 := pyEq_refl (.list xs)
    simp only [pyEq] at h2 ⊢
    simp only [pyEq.pyEqList, h1, h2, Bool.and_self, true_and]
  | .tuple [] => rfl
  | .tuple (x :: xs) => by
    have h1 := pyEq_refl x
    have h2 := pyEq_refl (.tuple xs)
    simp only [pyEq] at h2 ⊢
    simp only [pyEq.pyEqList, h1, h2, Bool.and_self, true_and]
  | .dict [] => rfl
  | .dict ((k, v) :: entries) => by
    have h1 := pyEq_refl v
    have h2 := pyEq_refl (.dict entries)
    simp only [pyEq] at h2 ⊢
    simp [pyEq.pyEqEntries, h1, h2]
  | .boundMethod n => by simp [pyEq]

theorem keyCountF_bumpCount_self (counts : List (PyVal × Nat)) (k : PyVal) :
    keyCountF (bumpCount counts k) k = keyCountF counts k + 1 := by
  induction counts with
  | nil => simp [bumpCount, keyCountF, pyEq_refl k]
  | cons e rest ih =>
    by_cases he : pyEq e.1 k = true
    · simp [bumpCount, he, keyCountF]
    · simp only [bumpCount, keyCountF]
      rw [if_neg he, if_neg he, keyCountF]
      rw [if_neg he]
      exact ih

theorem keyCountF_bumpCount_le (counts : List (PyVal × Nat)) (x k : PyVal) :
    keyCountF counts k ≤ keyCountF (bumpCount counts x) k := by
  induction counts with
  | nil => simp [bumpCount, keyCountF]
  | cons e rest ih =>
    by_cases hx : pyEq e.1 x = true
    · simp only [bumpCount, hx, if_true, keyCountF]
      by_cases hk : pyEq e.1 k = true
      · rw [if_pos hk, if_pos hk]; omega
      · rw [if_neg hk, if_neg hk]
    · simp only [bumpCount, keyCountF]
      rw [if_neg hx]
      by_cases hk : pyEq e.1 k = true
      · rw [keyCountF, if_pos hk, if_pos hk]
      · rw [keyCountF, if_neg hk, if_neg hk]
        exact ih

theorem keyCountF_tallyKeys_le (ks : List PyVal)
    (counts : List (PyVal × Nat)) (k : PyVal) :
    keyCountF counts k ≤ keyCountF (tallyKeys counts ks) k := by
  induction ks generalizing counts with
  | nil => simp [tallyKeys]
  | cons x ks' ih =>
    have h1 := keyCountF_bumpCount_le counts x k
    have h2 := ih (bumpCount counts x)
    calc keyCountF counts k ≤ keyCountF (bumpCount counts x) k := h1
      _ ≤ keyCountF (tallyKeys (bumpCount counts x) ks') k := h2
      _ = keyCountF (tallyKeys counts (x :: ks')) k := by simp [tallyKeys]

theorem keyCountF_two_of_dup (m1 m2 m3 : List PyVal) (k : PyVal)
    (counts : List (PyVal × Nat)) :
    2 ≤ keyCountF (tallyKeys counts (m1 ++ k :: (m2 ++ k :: m3))) k := by
  have hsplit1 : tallyKeys counts (m1 ++ k :: (m2 ++ k :: m3))
      = tallyKeys (bumpCount (tallyKeys counts m1) k) (m2 ++ k :: m3) := by
    simp [tallyKeys, List.foldl_append]
  have hsplit2 : tallyKeys (bumpCount (tallyKeys counts m1) k) (m2 ++ k :: m3)
      = tallyKeys (bumpCount (tallyKeys (bumpCount (tallyKeys counts m1) k) m2) k) m3 := by
    simp [tallyKeys, List.foldl_append]
  rw [hsplit1, hsplit2]
  have s1 : 1 ≤ keyCountF (bumpCount (tallyKeys counts m1) k) k := by
    rw [keyCountF_bumpCount_self]; omega
  have s2 : 1 ≤ keyCountF (tallyKeys (bumpCount (tallyKeys counts m1) k) m2) k :=
    le_trans s1 (keyCountF_tallyKeys_le _ _ _)
  have s3 : 2 ≤ keyCountF
      (bumpCount (tallyKeys (bumpCount (tallyKeys counts m1) k) m2) k) k := by
    rw [keyCountF_bumpCount_self]; omega
  exact le_trans s3 (keyCountF_tallyKeys_le _ _ _)

theorem keyCountF_exists_entry (counts : List (PyVal × Nat)) (k : PyVal)
    (h : 1 ≤ keyCountF counts k) :
    ∃ e ∈ counts, pyEq e.1 k = true ∧ keyCountF counts k = e.2 := by
  induction counts with
  | nil => simp [keyCountF] at h
  | cons e rest ih =>
    by_cases he : pyEq e.1 k = true
    · refine ⟨e, by simp, he, ?_⟩
      simp [keyCountF, he]
    · rw [keyCountF, if_neg he] at h ⊢
      obtain ⟨e', he', hpy, hc⟩ := ih h
      exact ⟨e', by simp [he'], hpy, hc⟩

theorem switchCaseLoop_none_inv (vd : PyVal → Option String)
    (cases : List Dict) (counts counts' : List (PyVal × Nat))
    (h : switchCaseLoop vd cases counts = (counts', Option.none)) :
    counts' = tallyKeys counts (cases.map caseKeysList).flatten
      ∧ ∀ c ∈ cases, dictHas c "args" = false ∧ dictHas c "deps" = false := by
  induction cases generalizing counts with
  | nil =>
    simp only [switchCaseLoop, Prod.mk.injEq] at h
    simp [h.1, tallyKeys]
  | cons c rest ih =>
    simp only [switchCaseLoop] at h
    by_cases hargs : dictHas c "args" = true
    · rw [if_pos hargs] at h
      simp at h
    · rw [if_neg hargs] at h
      by_cases hdeps : dictHas c "deps" = true
      · rw [if_pos hdeps] at h
        simp at h
      · rw [if_neg hdeps] at h
        match hvd : vd (.dict c) with
        | some msg => rw [hvd] at h; simp at h
        | Option.none =>
          rw [hvd] at h
          obtain ⟨hc, hall⟩ := ih _ h
          refine ⟨?_, ?_⟩
          · rw [hc]
            simp [tallyKeys, List.foldl_append]
          · intro c' hc'
            rcases List.mem_cons.mp hc' with hh | ht
            · subst hh
              exact ⟨by simpa using hargs, by simpa using hdeps⟩
            · exact hall c' ht

theorem switchValidateTaskDef_none_inv (vd : PyVal → Option String)
    (td : SwitchTaskDef) (h : switchValidateTaskDef vd td = Option.none) :
    (∀ c ∈ td.cases, dictHas c "args" = false ∧ dictHas c "deps" = false)
      ∧ (∀ e ∈ tallyKeys [] (allCaseKeys td), e.2 ≤ 1)
      ∧ (∀ dv, td.defaultOpt = some dv →
          pyIn dv [.str "pass", .str "fail"] = true
            ∧ ∀ e ∈ tallyKeys [] (allCaseKeys td), pyEq e.1 (.str DEFAULT_CASE) = false) := by
  unfold switchValidateTaskDef at h
  split at h
  · exact absurd h (by simp)
  · split at h
    · exact absurd h (by simp)
    · split at h
      · exact absurd h (by simp)
      · split at h
        · exact absurd h (by simp)
        · split at h
          · exact absurd h (by simp)
          · rename_i counts hloop
            obtain ⟨hcounts, hclean⟩ :=
              switchCaseLoop_none_inv vd td.cases [] counts hloop
            have hcounts' : counts = tallyKeys [] (allCaseKeys td) := by
              rw [hcounts, allCaseKeys]
            unfold switchValidateCounts at h
            split at h
            · split at h <;> exact absurd h (by simp)
            · rename_i hfind
              have hle : ∀ e ∈ tallyKeys [] (allCaseKeys td), e.2 ≤ 1 := by
                intro e he
                have := List.find?_eq_none.mp hfind e (hcounts' ▸ he)
                simpa using this
              refine ⟨hclean, hle, ?_⟩
              intro dv hdv
              split at h
              · rename_i hopt
                rw [hopt] at hdv
                exact absurd hdv (by simp)
              · rename_i dv' hopt
                rw [hopt] at hdv
                have hdv' : dv' = dv := by
                  injection hdv
                subst hdv'
                split at h
                · exact absurd h (by simp)
                · rename_i hin
                  split at h
                  · exact absurd h (by simp)
                  · rename_i hany
                    refine ⟨by simpa using hin, ?_⟩
                    intro e he
                    rw [List.any_eq_true] at hany
                    push_neg at hany
                    have := hany e (hcounts' ▸ he)
                    simpa using this

/-- C6: switch validation reports an error whenever the declared case
values are not pairwise unique (two occurrences of the same case value,
including two untagged default cases contributing the `DEFAULT_CASE`
sentinel twice), whenever the `default` option is set to a value
outside `{"pass", "fail"}`, whenever the `default` option is combined
with an explicit (untagged) default case, and whenever any individual
case definition carries an `args` or `deps` option. -/
theorem switch_validation_rejects (vd : PyVal → Option String)
    (td : SwitchTaskDef) :
    (∀ m1 m2 m3 k, allCaseKeys td = m1 ++ k :: (m2 ++ k :: m3) →
        (switchValidateTaskDef vd td).isSome)
      ∧ (∀ dv, td.defaultOpt = some dv → pyIn dv [.str "pass", .str "fail"] = false →
          (switchValidateTaskDef vd td).isSome)
      ∧ (∀ dv c, td.defaultOpt = some dv → c ∈ td.cases → dictGet c "case" = Option.none →
          (switchValidateTaskDef vd td).isSome)
      ∧ (∀ c, c ∈ td.cases → (dictHas c "args" = true ∨ dictHas c "deps" = true) →
          (switchValidateTaskDef vd td).isSome) := by
  refine ⟨?_, ?_, ?_, ?_⟩
  · intro m1 m2 m3 k hsplit
    by_contra hnone
    rw [Option.not_isSome_iff_eq_none] at hnone
    obtain ⟨_, hle, _⟩ := switchValidateTaskDef_none_inv vd td hnone
    have h2 : 2 ≤ keyCountF (tallyKeys [] (allCaseKeys td)) k := by
      rw [hsplit]; exact keyCountF_two_of_dup m1 m2 m3 k []
    obtain ⟨e, he, _, hc⟩ :=
      keyCountF_exists_entry (tallyKeys [] (allCaseKeys td)) k (by omega)
    have := hle e he
    omega
  · intro dv hdv hin
    by_contra hnone
    rw [Option.not_isSome_iff_eq_none] at hnone
    obtain ⟨_, _, hdef⟩ := switchValidateTaskDef_none_inv vd td hnone
    have := (hdef dv hdv).1
    rw [hin] at this
    simp at this
  · intro dv c hdv hc hcase
    by_contra hnone
    rw [Option.not_isSome_iff_eq_none] at hnone
    obtain ⟨_, _, hdef⟩ := switchValidateTaskDef_none_inv vd td hnone
    have hmem : PyVal.str DEFAULT_CASE ∈ allCaseKeys td := by
      rw [allCaseKeys]
      rw [List.mem_flatten]
      refine ⟨caseKeysList c, List.mem_map_of_mem caseKeysList hc, ?_⟩
      rw [caseKeysList, hcase]
      simp
    obtain ⟨m1, m2, hsplit⟩ := List.append_of_mem hmem
    have h1 : 1 ≤ keyCountF (tallyKeys [] (allCaseKeys td)) (.str DEFAULT_CASE) := by
      rw [hsplit]
      have heq : tallyKeys [] (m1 ++ PyVal.str DEFAULT_CASE :: m2)
          = tallyKeys (bumpCount (tallyKeys [] m1) (.str DEFAULT_CASE)) m2 := by
        simp [tallyKeys, List.foldl_append]
      rw [heq]
      have := keyCountF_bumpCount_self (tallyKeys [] m1) (.str DEFAULT_CASE)
      have hle := keyCountF_tallyKeys_le m2
        (bumpCount (tallyKeys [] m1) (.str DEFAULT_CASE)) (.str DEFAULT_CASE)
      omega
    obtain ⟨e, he, hpy, _⟩ := keyCountF_exists_entry _ _ h1
    have := (hdef dv hdv).2 e he
    rw [hpy] at this
    simp at this
  · intro c hc hopt
    by_contra hnone
    rw [Option.not_isSome_iff_eq_none] at hnone
    obtain ⟨hclean, _, _⟩ := switchValidateTaskDef_none_inv vd td hnone
    rcases hopt with h | h
    · rw [(hclean c hc).1] at h
      simp at h
    · rw [(hclean c hc).2] at h
      simp at h

/-- Witness for `switch_validation_rejects`: a switch with two cases
both tagged `case: "x"` is rejected, as is one with two untagged
default cases; a `default: "maybe"` option, a `default` option combined
with an untagged default case, and an `args` option on a case are each
rejected too (oracle accepting every definition, so only the embedded
checks can reject). -/
theorem switch_validation_rejects_witness :
    (switchValidateTaskDef (fun _ => Option.none)
        { control := some (.str "c"),
          cases := [[("case", .str "x"), ("cmd", .str "a")],
                    [("case", .str "x"), ("cmd", .str "b")]],
          defaultOpt := Option.none }).isSome
      ∧ (switchValidateTaskDef (fun _ => Option.none)
          { control := some (.str "c"),
            cases := [[("cmd", .str "a")], [("cmd", .str "b")]],
            defaultOpt := Option.none }).isSome
      ∧ (switchValidateTaskDef (fun _ => Option.none)
          { control := some (.str "c"), cases := [[("cmd", .str "a")]],
            defaultOpt := some (.str "maybe") }).isSome
      ∧ (switchValidateTaskDef (fun _ => Option.none)
          { control := some (.str "c"), cases := [[("cmd", .str "a")]],
            defaultOpt := some (.str "pass") }).isSome
      ∧ (switchValidateTaskDef (fun _ => Option.none)
          { control := some (.str "c"),
            cases := [[("case", .str "x"), ("args", .list [.str "a"])]],
            defaultOpt := Option.none }).isSome := by
  refine ⟨?_, ?_, ?_, ?_, ?_⟩
  · exact (switch_validation_rejects (fun _ => Option.none) _).1
      [] [] [] (.str "x") (by rfl)
  · exact (switch_validation_rejects (fun _ => Option.none) _).1
      [] [] [] (.str DEFAULT_CASE) (by rfl)
  · exact (switch_validation_rejects (fun _ => Option.none) _).2.1
      (.str "maybe") rfl (by rfl)
  · exact (switch_validation_rejects (fun _ => Option.none) _).2.2.1
      (.str "pass") [("cmd", .str "a")] rfl (by simp) (by rfl)
  · exact (switch_validation_rejects (fun _ => Option.none) _).2.2.2
      [("case", .str "x"), ("args", .list [.str "a"])] (by simp)
      (Or.inl (by rfl))

theorem get_case_keys_unhashable (c : Dict) :
    pyHashable (get_case_keys c) = false := by
  unfold get_case_keys
  split <;> rfl

/-- C5 fails on the code: `get_case_keys` returns an (unhashable)
Python list on every path, so registering any case spec in the
`case_specs` dict raises `TypeError`; and even given case specs, the
`SwitchTask.__init__` loop raises `NameError` (`name` is unbound at
switch.py line 118) before registering any case task.  Only the
control half of the claim holds: the control task is instantiated with
`capture_stdout=True` (trivially so with zero cases, the only way
`__init__` completes). -/
theorem switch_case_registration_crashes :
    switchSpecCaseSpecs [[("case", .str "a"), ("cmd", .str "x")]]
        = .error (.typeError "unhashable type")
      ∧ (∀ (c : Dict) (rest : List Dict) (idx : Nat) (acc : List (PyVal × Nat)),
          switchSpecCaseSpecsAux (c :: rest) idx acc
            = .error (.typeError "unhashable type"))
      ∧ switchTaskInit [(.str "a", 0)] = .error (.nameError "name")
      ∧ (∀ (e : PyVal × Nat) (rest : List (PyVal × Nat)),
          switchTaskInit (e :: rest) = .error (.nameError "name"))
      ∧ switchTaskInit [] = .ok { controlCaptureStdout := true, switchTasks := [] } := by
  refine ⟨rfl, ?_, rfl, ?_, rfl⟩
  · intro c rest idx acc
    unfold switchSpecCaseSpecsAux dictSetItemAny
    rw [if_neg (by rw [get_case_keys_unhashable c]; exact Bool.false_ne_true)]
  · intro e rest
    rfl

theorem any_eq_findField_isSome (fields : List FieldDecl) (key : String) :
    fields.any (fun f => f.name = key) = (findField fields key).isSome := by
  induction fields with
  | nil => rfl
  | cons f rest ih =>
    by_cases h : f.name = key
    · simp [findField, List.find?_cons, h]
    · simp only [List.any_cons, findField, List.find?_cons, h, decide_eq_true_eq,
        Bool.false_or, if_neg]
      simp only [h, decide_False, Bool.false_or]
      rw [ih]
      rfl

theorem optGet_bound (classAttrs : List (String × PyVal))
    (fields : List FieldDecl) (bound : Dict) (key : String)
    (d : Option PyVal) (v : PyVal) (hkw : isPyKeyword key = false)
    (hb : dictGet bound key = some v) :
    optGet classAttrs fields bound key d = .ok v := by
  unfold optGet
  simp only [hkw, Bool.false_eq_true, if_false, optHasattr, hb, Option.isSome_some,
    Bool.true_or, Bool.not_true, Bool.false_and, optGetattr]

theorem optGet_default (classAttrs : List (String × PyVal))
    (fields : List FieldDecl) (bound : Dict) (key : String)
    (d : Option PyVal) (f : FieldDecl) (dv : PyVal)
    (hkw : isPyKeyword key = false) (hb : dictGet bound key = Option.none)
    (hf : findField fields key = some f) (hd : f.dflt = some dv) :
    optGet classAttrs fields bound key d = .ok dv := by
  unfold optGet
  simp only [hkw, Bool.false_eq_true, if_false, optHasattr, hb, Option.isSome_none,
    Bool.false_or, hf, hd, Option.isSome_some, Bool.true_or, Bool.not_true,
    Bool.false_and, optGetattr]

theorem optGet_unset (classAttrs : List (String × PyVal))
    (fields : List FieldDecl) (bound : Dict) (key : String)
    (f : FieldDecl) (hkw : isPyKeyword key = false)
    (hb : dictGet bound key = Option.none) (hf : findField fields key = some f)
    (hd : f.dflt = Option.none) (hm : lookupS classAttrs key = Option.none) :
    optGet classAttrs fields bound key Option.none
      = (match type_of_ann f.ann with
         | .members [] => .error .indexError
         | .members (m :: _) => constructAnn m
         | .single c => constructAnn c) := by
  have hany : fields.any (fun g => g.name = key) = true := by
    rw [any_eq_findField_isSome, hf]
    rfl
  unfold optGet
  simp only [hkw, Bool.false_eq_true, if_false, optHasattr, hb, Option.isSome_none,
    Bool.false_or, hf, hd, hm, hany, Bool.not_true, Bool.and_false, optGetattr]

theorem optGet_missing (classAttrs : List (String × PyVal))
    (fields : List FieldDecl) (bound : Dict) (key : String)
    (d : Option PyVal) (hkw : isPyKeyword key = false)
    (hb : dictGet bound key = Option.none) (hf : findField fields key = Option.none)
    (hm : lookupS classAttrs key = Option.none) :
    optGet classAttrs fields bound key d = .error (.keyError key) := by
  have hany : fields.any (fun g => g.name = key) = false := by
    rw [any_eq_findField_isSome, hf]
    rfl
  unfold optGet
  simp only [hkw, Bool.false_eq_true, if_false, optHasattr, hb, Option.isSome_none,
    Bool.false_or, hf, hm, hany, Bool.not_false, Bool.and_self, if_true]

theorem optGet_classattr_undeclared (classAttrs : List (String × PyVal))
    (fields : List FieldDecl) (bound : Dict) (key : String)
    (d : Option PyVal) (mv : PyVal) (hkw : isPyKeyword key = false)
    (hb : dictGet bound key = Option.none)
    (hf : findField fields key = Option.none)
    (hm : lookupS classAttrs key = some mv) :
    optGet classAttrs fields bound key d = .ok mv := by
  unfold optGet
  simp only [hkw, Bool.false_eq_true, if_false, optHasattr, hb, Option.isSome_none,
    Bool.false_or, hf, hm, Option.isSome_some, Bool.or_true, Bool.not_true,
    Bool.false_and, optGetattr]

theorem optGet_classattr_shadow (classAttrs : List (String × PyVal))
    (fields : List FieldDecl) (bound : Dict) (key : String)
    (d : Option PyVal) (f : FieldDecl) (mv : PyVal)
    (hkw : isPyKeyword key = false) (hb : dictGet bound key = Option.none)
    (hf : findField fields key = some f) (hd : f.dflt = Option.none)
    (hm : lookupS classAttrs key = some mv) :
    optGet classAttrs fields bound key d = .ok mv := by
  unfold optGet
  simp only [hkw, Bool.false_eq_true, if_false, optHasattr, hb, Option.isSome_none,
    Bool.false_or, hf, hd, hm, Option.isSome_some, Bool.or_true, Bool.not_true,
    Bool.false_and, optGetattr]

theorem isKeyErrorRes_constructAnn (a : Ann) :
    isKeyErrorRes (constructAnn a) = false := by
  cases a <;> rfl

theorem optionsBind_none_of_findField_none (fields : List FieldDecl)
    (input : Dict) (key : String) (hf : findField fields key = Option.none) :
    dictGet (optionsBind fields input) key = Option.none := by
  induction fields with
  | nil => rfl
  | cons f rest ih =>
    have hne : ¬ f.name = key := by
      intro h
      rw [findField, List.find?_cons] at hf
      simp [h] at hf
    have hf' : findField rest key = Option.none := by
      rw [findField, List.find?_cons] at hf
      simp only [hne, decide_False] at hf
      exact hf
    match hin : dictGet input f.name with
    | Option.none =>
      rw [optionsBind, hin]
      exact ih hf'
    | some v =>
      rw [optionsBind, hin, dictGet, if_neg hne]
      exact ih hf'

/-- Counterexample to C7 as stated: on `ProjectConfig.ConfigOptions`
with an empty raw config, `get("update")` does not raise a lookup
error although `"update"` is not a declared field at all —
`hasattr(self, "update")` is true for the bound method inherited from
`PoeOptions`, so `get` returns that method instead of raising
`KeyError`, refuting the claimed iff in both the "raises only if"
reading and the model. -/
theorem options_get_update_no_keyerror :
    optGet poeOptionsMethods projectConfigFields
        (optionsBind projectConfigFields []) "update" Option.none
      = .ok (.boundMethod "update")
      ∧ findField projectConfigFields "update" = Option.none
      ∧ isKeyErrorRes (optGet poeOptionsMethods projectConfigFields
          (optionsBind projectConfigFields []) "update" Option.none) = false := by
  refine ⟨rfl, rfl, rfl⟩

/-- C7 (amended): on an options object whose explicit bindings come
from `PoeOptions.__init__` (so only declared fields are bound) and
whose class namespace `classAttrs` carries the non-field attributes of
the class hierarchy (the `PoeOptions` methods, dunders), `get(key)`
with no caller default returns the explicitly bound value if one was
bound, else the field's declared literal default if any, else —
provided the key does not also name a class-namespace attribute — a
type-driven empty value: `{}` for a mapping-typed field, `[]` for a
sequence-typed field, and the no-argument construction of the first
member type for a union-typed field; for an undeclared key naming a
class-namespace attribute, `get` returns that attribute (the bound
method) instead of raising; and `get(key)` raises `KeyError` iff `key`
names neither a declared field nor a class-namespace attribute.
(`key` is not a Python keyword; keyword keys are normalised by
appending `_` and can never name a declared field, since annotating a
keyword is a syntax error.) -/
theorem options_get_semantics (classAttrs : List (String × PyVal))
    (fields : List FieldDecl) (input : Dict)
    (key : String) (hkw : isPyKeyword key = false) :
    (∀ v, dictGet (optionsBind fields input) key = some v →
        optGet classAttrs fields (optionsBind fields input) key Option.none
          = .ok v)
      ∧ (∀ f dv, dictGet (optionsBind fields input) key = Option.none →
          findField fields key = some f → f.dflt = some dv →
          optGet classAttrs fields (optionsBind fields input) key Option.none
            = .ok dv)
      ∧ (∀ f, dictGet (optionsBind fields input) key = Option.none →
          findField fields key = some f → f.dflt = Option.none →
          lookupS classAttrs key = Option.none →
          (f.ann = .aMapOf →
              optGet classAttrs fields (optionsBind fields input) key Option.none
                = .ok (.dict []))
            ∧ (f.ann = .aSeqOf →
                optGet classAttrs fields (optionsBind fields input) key Option.none
                  = .ok (.list []))
            ∧ (∀ m ms, f.ann = .aUnion (m :: ms) →
                optGet classAttrs fields (optionsBind fields input) key Option.none
                  = constructAnn m))
      ∧ (∀ mv, dictGet (optionsBind fields input) key = Option.none →
          findField fields key = Option.none →
          lookupS classAttrs key = some mv →
          optGet classAttrs fields (optionsBind fields input) key Option.none
            = .ok mv)
      ∧ (isKeyErrorRes
            (optGet classAttrs fields (optionsBind fields input) key Option.none)
            = true
          ↔ findField fields key = Option.none
              ∧ lookupS classAttrs key = Option.none) := by
  refine ⟨?_, ?_, ?_, ?_, ?_⟩
  · intro v hb
    exact optGet_bound _ _ _ _ _ _ hkw hb
  · intro f dv hb hf hd
    exact optGet_default _ _ _ _ _ _ _ hkw hb hf hd
  · intro f hb hf hd hm
    refine ⟨?_, ?_, ?_⟩
    · intro hann
      rw [optGet_unset _ _ _ _ _ hkw hb hf hd hm, hann]
      rfl
    · intro hann
      rw [optGet_unset _ _ _ _ _ hkw hb hf hd hm, hann]
      rfl
    · intro m ms hann
      rw [optGet_unset _ _ _ _ _ hkw hb hf hd hm, hann]
      rfl
  · intro mv hb hf hm
    exact optGet_classattr_undeclared _ _ _ _ _ _ hkw hb hf hm
  · constructor
    · intro hkey
      match hf : findField fields key with
      | Option.none =>
        refine ⟨rfl, ?_⟩
        match hm : lookupS classAttrs key with
        | Option.none => rfl
        | some mv =>
          exfalso
          have hb := optionsBind_none_of_findField_none fields input key hf
          rw [optGet_classattr_undeclared _ _ _ _ _ _ hkw hb hf hm] at hkey
          simp [isKeyErrorRes] at hkey
      | some f =>
        exfalso
        match hb : dictGet (optionsBind fields input) key with
        | some v =>
          rw [optGet_bound _ _ _ _ _ _ hkw hb] at hkey
          simp [isKeyErrorRes] at hkey
        | Option.none =>
          match hd : f.dflt with
          | some dv =>
            rw [optGet_default _ _ _ _ _ _ _ hkw hb hf hd] at hkey
            simp [isKeyErrorRes] at hkey
          | Option.none =>
            match hm : lookupS classAttrs key with
            | some mv =>
              rw [optGet_classattr_shadow _ _ _ _ _ _ _ hkw hb hf hd hm] at hkey
              simp [isKeyErrorRes] at hkey
            | Option.none =>
              rw [optGet_unset _ _ _ _ _ hkw hb hf hd hm] at hkey
              match hta : type_of_ann f.ann with
              | .members [] =>
                rw [hta] at hkey
                simp [isKeyErrorRes] at hkey
              | .members (m :: ms) =>
                rw [hta] at hkey
                cases m <;> simp [constructAnn, isKeyErrorRes] at hkey
              | .single c =>
                rw [hta] at hkey
                cases c <;> simp [constructAnn, isKeyErrorRes] at hkey
    · intro hfm
      rw [optGet_missing _ _ _ _ _ hkw
        (optionsBind_none_of_findField_none _ _ _ hfm.1) hfm.1 hfm.2]
      rfl

theorem isPoeExceptionErr_isinstanceCls (v : PyVal) (a : Ann) :
    isPoeExceptionErr (isinstanceCls v a) = false := by
  cases a <;> rfl

theorem isPoeExceptionErr_isinstanceTuple (v : PyVal) (ms : List Ann) :
    isPoeExceptionErr (isinstanceTuple v ms) = false := by
  induction ms with
  | nil => rfl
  | cons a rest ih =>
    rw [isinstanceTuple]
    match ha : isinstanceCls v a with
    | .error e =>
      have := isPoeExceptionErr_isinstanceCls v a
      rw [ha] at this
      exact this
    | .ok true => rfl
    | .ok false => exact ih

theorem isPoeExceptionErr_isOptionTypeValid (v : PyVal) (a : Ann) :
    isPoeExceptionErr (isOptionTypeValid v a) = false := by
  rw [isOptionTypeValid]
  match type_of_ann a with
  | .single c => exact isPoeExceptionErr_isinstanceCls v c
  | .members ms => exact isPoeExceptionErr_isinstanceTuple v ms

/-- C1 fails on the code: on a config whose `verbosity` is a string
(present supported key, type mismatch with the declared `int`), the
type-check phase of `PoeConfig.validate()` fails fast, but with
`NameError` — the error message f-string at config.py lines 222-225
references the undefined name `option_type` — and never with the
`PoeException` describing the expected type that the claim states;
indeed no run of the type-check loop can produce a `PoeException`. -/
theorem validate_type_mismatch_raises_name_error :
    validateConfigKeysAndTypes [("verbosity", .str "high")]
        = .error (.nameError "option_type")
      ∧ (∀ (fields : List FieldDecl) (raw : Dict),
          isPoeExceptionErr (checkOptionTypes fields raw) = false) := by
  constructor
  · rfl
  · intro fields raw
    induction fields with
    | nil => rfl
    | cons f rest ih =>
      rw [checkOptionTypes]
      split
      · exact ih
      · split
        · rename_i x1 dv hdv x2 e heq
          have h1 := isPoeExceptionErr_isOptionTypeValid dv f.ann
          rw [heq] at h1
          simpa [isPoeExceptionErr] using h1
        · exact ih
        · rfl

/-- Witness for `options_get_semantics`: on `ProjectConfig.ConfigOptions`
with an empty raw config, `get("env")` (mapping-typed, unset,
defaultless, not a method name) yields `{}` and
`get("default_task_type")` yields its literal default `"cmd"`; with
`verbosity` bound, `get("verbosity")` returns the bound value;
`get("is_set")` of an undeclared method name returns the bound method;
and `get` of a key naming neither a field nor a class attribute raises
`KeyError`. -/
theorem options_get_semantics_witness :
    optGet poeOptionsMethods projectConfigFields
        (optionsBind projectConfigFields []) "env" Option.none = .ok (.dict [])
      ∧ optGet poeOptionsMethods projectConfigFields
          (optionsBind projectConfigFields [])
          "default_task_type" Option.none = .ok (.str "cmd")
      ∧ optGet poeOptionsMethods projectConfigFields
          (optionsBind projectConfigFields [("verbosity", .int 1)])
          "verbosity" Option.none = .ok (.int 1)
      ∧ optGet poeOptionsMethods projectConfigFields
          (optionsBind projectConfigFields []) "is_set" Option.none
          = .ok (.boundMethod "is_set")
      ∧ isKeyErrorRes (optGet poeOptionsMethods projectConfigFields
          (optionsBind projectConfigFields []) "nope" Option.none) = true := by
  refine ⟨?_, ?_, ?_, ?_, ?_⟩
  · exact ((options_get_semantics poeOptionsMethods projectConfigFields []
      "env" rfl).2.2.1 ⟨"env", .aMapOf, Option.none⟩ rfl rfl rfl rfl).1 rfl
  · exact (options_get_semantics poeOptionsMethods projectConfigFields []
      "default_task_type" rfl).2.1
      ⟨"default_task_type", .aStr, some (.str "cmd")⟩ (.str "cmd") rfl rfl rfl
  · exact (options_get_semantics poeOptionsMethods projectConfigFields
      [("verbosity", .int 1)] "verbosity" rfl).1 (.int 1) rfl
  · exact (options_get_semantics poeOptionsMethods projectConfigFields []
      "is_set" rfl).2.2.2.1 (.boundMethod "is_set") rfl rfl rfl
  · exact (options_get_semantics poeOptionsMethods projectConfigFields []
      "nope" rfl).2.2.2.2.mpr ⟨rfl, rfl⟩

/-- C8 fails on the code for class hierarchies deeper than one level
below `PoeOptions`: `get_fields` merges only the direct base's visible
annotations, so on the chain `C3 <: C2 <: C1 <: PoeOptions` (fields
`z`, `y`, `x` respectively) it returns `{y, z}` and drops the
grandparent's field `x`, while the claimed union of own and all
ancestors' fields is `{x, y, z}`; for direct subclasses of
`PoeOptions` the two agree, and repeated calls agree trivially (the
function is pure; the source's cache never fires because
`hasattr(cls, "__annotations")` tests the unmangled name, but the
recomputation is deterministic). -/
theorem get_fields_drops_grandparent_fields :
    get_fields chainC3 = ["y", "z"]
      ∧ specGetFields chainC3 = ["x", "y", "z"]
      ∧ (specGetFields chainC3).contains "x" = true
      ∧ (get_fields chainC3).contains "x" = false
      ∧ ∀ own : List String,
          get_fields (.subclass .poeOptions own)
            = specGetFields (.subclass .poeOptions own) := by
  refine ⟨by decide, by decide, by decide, by decide, ?_⟩
  intro own
  rfl

/-- C9: every include path is resolved relative to the project
directory; an include whose resolved file does not exist is silently
skipped and loading continues; an include file that exists but fails
to parse or validate aborts loading with a configuration error naming
the include path; and a missing file is the only tolerated failure —
loading succeeds iff no include resolves to an existing file that
fails to load. -/
theorem include_loading_semantics (projectDir : String)
    (fs : String → Option (Except IncludeLoadFailure Dict))
    (inc : IncludeItem) (rest : List IncludeItem) :
    (fs (joinPath projectDir inc.path) = Option.none →
        loadIncludes projectDir fs (inc :: rest) = loadIncludes projectDir fs rest)
      ∧ (∀ failure, fs (joinPath projectDir inc.path) = some (.error failure) →
          loadIncludes projectDir fs (inc :: rest)
            = .error (.poeException
                ("Invalid content in included file from "
                  ++ joinPath projectDir inc.path)))
      ∧ (∀ items : List IncludeItem,
          isOkE (loadIncludes projectDir fs items) = true
            ↔ ∀ i ∈ items, isBadFile (fs (joinPath projectDir i.path)) = false) := by
  refine ⟨?_, ?_, ?_⟩
  · intro h
    rw [loadIncludes, h]
  · intro failure h
    rw [loadIncludes, h]
  · intro items
    induction items with
    | nil => simp [loadIncludes, isOkE]
    | cons i rest' ih =>
      rw [loadIncludes]
      match hf : fs (joinPath projectDir i.path) with
      | Option.none =>
        rw [ih]
        constructor
        · intro hall
          intro j hj
          rcases List.mem_cons.mp hj with hh | ht
          · subst hh
            rw [hf]
            rfl
          · exact hall j ht
        · intro hall j hj
          exact hall j (by simp [hj])
      | some (.error failure) =>
        simp only [isOkE]
        constructor
        · intro hfalse
          exact absurd hfalse (by simp)
        · intro hall
          have := hall i (by simp)
          rw [hf] at this
          simp [isBadFile] at this
      | some (.ok conf) =>
        constructor
        · intro hok j hj
          rcases List.mem_cons.mp hj with hh | ht
          · subst hh
            rw [hf]
            rfl
          · refine (ih.mp ?_) j ht
            match hrest : loadIncludes projectDir fs rest' with
            | .ok loaded => rfl
            | .error e =>
              rw [hrest] at hok
              simp [isOkE] at hok
        · intro hall
          have hres : isOkE (loadIncludes projectDir fs rest') = true :=
            ih.mpr (fun j hj => hall j (by simp [hj]))
          match hrest : loadIncludes projectDir fs rest' with
          | .ok loaded => rfl
          | .error e =>
            rw [hrest] at hres
            simp [isOkE] at hres

/-- Witness for `include_loading_semantics`: a two-include list whose
first file is missing and whose second exists and parses is loaded by
skipping the first and keeping the second, scoped to the project
directory; and if the second instead fails to parse, loading aborts
with the configuration error naming its resolved path. -/
theorem include_loading_semantics_witness :
    loadIncludes "proj"
        (fun p => if p = "proj/good.toml"
          then some (.ok [("tasks", .dict [])]) else Option.none)
        [⟨"missing.toml", Option.none⟩, ⟨"good.toml", Option.none⟩]
      = .ok [{ path := "proj/good.toml", poeOptions := [("tasks", .dict [])],
               cwd := "proj" }]
      ∧ loadIncludes "proj"
          (fun p => if p = "proj/bad.toml"
            then some (.error (.parseFailure "oops")) else Option.none)
          [⟨"bad.toml", Option.none⟩]
        = .error (.poeException
            "Invalid content in included file from proj/bad.toml") := by
  constructor
  · have h := (include_loading_semantics "proj"
      (fun p => if p = "proj/good.toml"
        then some (.ok [("tasks", .dict [])]) else Option.none)
      ⟨"missing.toml", Option.none⟩ [⟨"good.toml", Option.none⟩]).1 (by simp [joinPath])
    rw [h]
    rfl
  · exact (include_loading_semantics "proj"
      (fun p => if p = "proj/bad.toml"
        then some (.error (.parseFailure "oops")) else Option.none)
      ⟨"bad.toml", Option.none⟩ []).2.1 (.parseFailure "oops") (by simp [joinPath])

/-- C10: a sequence task never captures its own stdout —
`SequenceTask.__init__` asserts `capture_stdout in (False, None)`, so
constructing with `capture_stdout=True` raises `AssertionError`, while
`False` and `None` are accepted and the base constructor is always
handed the literal `False`; every construction either fails the
assertion or passes `False` up. -/
theorem sequence_never_captures_stdout :
    sequenceTaskInitCapture (.bool true) = .error .assertionError
      ∧ sequenceTaskInitCapture (.bool false) = .ok false
      ∧ sequenceTaskInitCapture .none = .ok false
      ∧ ∀ v : PyVal, sequenceTaskInitCapture v = .ok false
          ∨ sequenceTaskInitCapture v = .error .assertionError := by
  refine ⟨rfl, rfl, rfl, ?_⟩
  intro v
  unfold sequenceTaskInitCapture
  by_cases h : pyIn v [.bool false, .none] = true
  · rw [if_pos h]
    exact Or.inl rfl
  · rw [if_neg h]
    exact Or.inr rfl

end Poe
